import Mathlib

/-!
Shallow embedding of `src/ObsCalMer.py` (class `ObspyCatalogMerger`) and
verification of the frozen claims about it.

Modelling conventions:
* Python floats (origin times, coordinates, thresholds, parsed weights) are
  modelled as rationals `ℚ`; integer counters as `ℤ`.
* Python exceptions are modelled with `Except PyErr`; a Python function that
  can raise returns `Except PyErr α`.
* obspy objects are modelled as structures carrying exactly the fields the
  script reads (`pick.waveform_id.station_code` is flattened to
  `Pick.station_code`).
* The geodesic helper `gps2dist_azimuth` (external library call returning a
  distance in meters as its first component) is passed in as a function
  parameter `gps`.
* CPython `set` iteration order is not insertion order: it depends on the
  (per-process randomized) string hashes.  The embedding therefore takes the
  enumeration order of a set as a parameter (`PyRuntime.setOrder`), constrained
  by `SetOrderOK` to enumerate each distinct element exactly once.
-/

/-- Python exception kinds that the modelled code can raise. -/
inductive PyErr where
  | attributeError
  | keyError
  | valueError
  | indexError
deriving DecidableEq, Repr

instance {ε α : Type} [DecidableEq ε] [DecidableEq α] : DecidableEq (Except ε α) :=
  fun x y =>
    match x, y with
    | .ok a, .ok b =>
      if h : a = b then .isTrue (by rw [h]) else .isFalse (fun hh => h (Except.ok.inj hh))
    | .error a, .error b =>
      if h : a = b then .isTrue (by rw [h]) else .isFalse (fun hh => h (Except.error.inj hh))
    | .ok _, .error _ => .isFalse (fun hh => Except.noConfusion hh)
    | .error _, .ok _ => .isFalse (fun hh => Except.noConfusion hh)

/-- A value stored under a key of `pick.extra`: either a plain string or a
dictionary (obspy stores extra fields as `{"value": ..., "namespace": ...}`).
`isinstance(weight, type({}))` in the source distinguishes the two. -/
inductive ExtraVal where
  | scalar (s : String)
  | composite (entries : List (String × String))
deriving DecidableEq, Repr

/-- An obspy `Pick`, restricted to the fields the script reads.
`station_code` stands for `pick.waveform_id.station_code`.
`extra = none` models a pick object without an `extra` attribute
(so `pick.extra` raises `AttributeError`); `some m` models an attribute
dict with assoc list `m`. -/
structure Pick where
  station_code : String
  phase_hint : String
  resource_id : String
  extra : Option (List (String × ExtraVal))
deriving DecidableEq, Repr

/-- An obspy `Arrival`: the script only reads `arrival.pick_id`. -/
structure Arrival where
  pick_id : String
deriving DecidableEq, Repr

/-- An obspy `Amplitude`: the script reads both `amplitude.resource_id`
(in `ReviewEventPicks`) and `amplitude.pick_id` (in `UpdateEvent`). -/
structure Amplitude where
  resource_id : String
  pick_id : String
deriving DecidableEq, Repr

/-- An obspy `Origin` as used by the script: `time`, `latitude`, `longitude`
and the `arrivals` list. -/
structure Origin where
  time : ℚ
  latitude : ℚ
  longitude : ℚ
  arrivals : List Arrival
deriving DecidableEq, Repr

/-- An obspy `Event` as used by the script.  All events handled by the claims
have a defined preferred origin, so `preferred_origin` is total. -/
structure Event where
  preferred_origin : Origin
  picks : List Pick
  amplitudes : List Amplitude
deriving DecidableEq, Repr

/-- The configuration options of `config.json` that the core logic reads. -/
structure Configs where
  OriginTimeShift : ℚ
  EpicentralShift : ℚ
  AddPhaseP : Bool
  AddPhaseS : Bool
  AddAmplitude : Bool
  ReplaceNewPhaseOnlyWithHigherWeight : Bool
  OutputCommonEventsCatalog : Bool
deriving DecidableEq, Repr

/-- CPython runtime parameter: the enumeration order that `list(s)` produces
for a set `s`.  The embedding hands it the distinct elements (in first
occurrence order) and it returns them in the order the interpreter would. -/
structure PyRuntime where
  setOrder : List String → List String

/-- A set enumeration is valid when it lists exactly the given distinct
elements, in some order.  (CPython's order depends on randomized string
hashes, so any permutation is realizable.) -/
def SetOrderOK (rt : PyRuntime) : Prop :=
  ∀ l : List String, (rt.setOrder l).Perm l

/-- A runtime whose set enumeration happens to preserve first-occurrence
order. -/
def idRt : PyRuntime := ⟨fun l => l⟩

/-- A runtime whose set enumeration reverses first-occurrence order
(realizable under a suitable hash seed). -/
def revRt : PyRuntime := ⟨fun l => l.reverse⟩

theorem idRt_ok : SetOrderOK idRt := fun _ => List.Perm.refl _

theorem revRt_ok : SetOrderOK revRt := fun l => l.reverse_perm

/-- Left-to-right effectful map: the embedding of a Python list comprehension
whose body may raise (the first exception aborts the whole comprehension). -/
def exMap {α β : Type} (f : α → Except PyErr β) : List α → Except PyErr (List β)
  | [] => .ok []
  | a :: t => do
    let b ← f a
    let bs ← exMap f t
    .ok (b :: bs)

/-- Left fold in the exception monad: the embedding of a Python `for` loop
threading an accumulator, where the body may raise. -/
def exFoldl {σ α : Type} (f : σ → α → Except PyErr σ) : σ → List α → Except PyErr σ
  | s, [] => .ok s
  | s, a :: t => do
    let s' ← f s a
    exFoldl f s' t

/-- Whether an `Except` computation succeeded. -/
def exIsOk {ε α : Type} : Except ε α → Bool
  | .ok _ => true
  | .error _ => false

/-- Does `hay` start with `needle`? (character-list version). -/
def chStarts : List Char → List Char → Bool
  | _, [] => true
  | [], _ :: _ => false
  | a :: as, b :: bs => a == b && chStarts as bs

/-- Does `hay` contain `needle` as a contiguous run? (character-list version). -/
def chHas : List Char → List Char → Bool
  | [], needle => needle.isEmpty
  | hay@(_ :: t), needle => chStarts hay needle || chHas t needle

/-- The Python membership test `needle in hay` on strings (substring test). -/
def pyIn (needle hay : String) : Bool := chHas hay.data needle.data

/-- Decimal digit string to the natural number it denotes. -/
def digitsToNat (cs : List Char) : Nat :=
  cs.foldl (fun a c => a * 10 + (c.toNat - 48)) 0

/-- Split a character list at every `'.'`. -/
def dotSplit : List Char → List (List Char)
  | [] => [[]]
  | c :: t =>
    match dotSplit t with
    | h :: r => if c = '.' then [] :: h :: r else (c :: h) :: r
    | [] => [[c]]

/-- The value Python's `float()` gives a plain decimal string (optional sign,
integer part, optional fractional part), or `none` when `float()` would raise
`ValueError`.  Exponent forms, `inf`/`nan`, underscores and surrounding
whitespace are outside the model's input range; on its range the rational
value agrees with Python up to the usual real-vs-IEEE reading of floats. -/
def pyFloat (s : String) : Option ℚ :=
  let cs := s.data
  let sgn : ℚ := match cs with | '-' :: _ => -1 | _ => 1
  let body := match cs with | '-' :: t => t | '+' :: t => t | _ => cs
  match dotSplit body with
  | [ip] =>
    if !ip.isEmpty && ip.all Char.isDigit then some (sgn * digitsToNat ip) else none
  | [ip, fp] =>
    if (!ip.isEmpty || !fp.isEmpty) && ip.all Char.isDigit && fp.all Char.isDigit then
      some (sgn * ((digitsToNat ip : ℚ) + (digitsToNat fp : ℚ) / (10 : ℚ) ^ fp.length))
    else none
  | _ => none

/-- `float(s)` as a fallible Python call. -/
def toFloat (s : String) : Except PyErr ℚ :=
  match pyFloat s with
  | some q => .ok q
  | none => .error .valueError

/-- The body of `ReadExtra` before its `try`/`except`:
`weight = pick.extra.get("nordic_pick_weight", "0")` raises `AttributeError`
when the pick has no `extra` attribute; when the stored weight is a dict,
`weight = weight["value"]` raises `KeyError` when the key is absent. -/
def ReadExtraBody (pick : Pick) : Except PyErr String :=
  match pick.extra with
  | none => .error .attributeError
  | some m =>
    match (List.lookup "nordic_pick_weight" m).getD (.scalar "0") with
    | .scalar s => .ok s
    | .composite d =>
      match List.lookup "value" d with
      | some v => .ok v
      | none => .error .keyError

/-- `ObspyCatalogMerger.ReadExtra`: run the body and catch `AttributeError`
only (`except AttributeError: weight = "0"`); any other exception
propagates. -/
def ReadExtra (pick : Pick) : Except PyErr String :=
  match ReadExtraBody pick with
  | .error .attributeError => .ok "0"
  | r => r

/-- `ObspyCatalogMerger.ComputeDiff`: true when both the absolute origin-time
difference and the absolute epicentral distance (gps meters scaled to km) are
strictly below their thresholds. -/
def ComputeDiff (cfg : Configs) (gps : ℚ → ℚ → ℚ → ℚ → ℚ) (RefEvent ComEvent : Event) : Bool :=
  let rO := RefEvent.preferred_origin
  let cO := ComEvent.preferred_origin
  let dT := |rO.time - cO.time|
  let dD := |gps rO.latitude rO.longitude cO.latitude cO.longitude * (1 / 1000)|
  decide (dT < cfg.OriginTimeShift ∧ dD < cfg.EpicentralShift)

/-- `ObspyCatalogMerger.FilterPhase`: rejects a pick whose phase category is
turned off by the configuration. -/
def FilterPhase (cfg : Configs) (pick : Pick) : Bool :=
  if !cfg.AddPhaseP && pyIn "P" pick.phase_hint then false
  else if !cfg.AddPhaseS && pyIn "S" pick.phase_hint then false
  else if !cfg.AddAmplitude && pyIn "AML" pick.phase_hint then false
  else true

/-- The identity string `"_".join([station_code, phase_hint, ReadExtra(pick)])`
built in `ManageNewPicks`. -/
def pickRemark (pick : Pick) : Except PyErr String := do
  let w ← ReadExtra pick
  .ok (pick.station_code ++ "_" ++ pick.phase_hint ++ "_" ++ w)

/-- One entry of `ComEventPickRemarks`: the remark when the pick passes the
filter, `None` otherwise (the filter is evaluated first, so `ReadExtra` is not
called on filtered picks). -/
def comRemark (cfg : Configs) (pick : Pick) : Except PyErr (Option String) :=
  if FilterPhase cfg pick then (pickRemark pick).map some else .ok none

/-- Keep the first occurrence of each element, dropping later duplicates. -/
def firstDedup : List String → List String
  | [] => []
  | a :: t => a :: (firstDedup t).filter (fun b => !(b == a))

/-- The mathematical content of
`filter(None, set(ComEventPickRemarks) - set(RefEventPickRemarks))`:
the distinct non-`None` comparison remarks absent from the reference remarks,
listed canonically in first-occurrence order.  (`None` is never an element of
`set(RefEventPickRemarks)` and is removed by `filter(None, ·)`; remark strings
always contain two underscores so none of them is falsy.) -/
def newPickSet (refR : List String) (comR : List (Option String)) : List String :=
  (firstDedup (comR.filterMap id)).filter (fun s => !(refR.contains s))

/-- `ComEventPickRemarks.index(newPick)`: first index of the remark, raising
`ValueError` when absent (which cannot happen for a valid set enumeration). -/
def remarkIndex (comR : List (Option String)) (s : String) : Except PyErr Nat :=
  match comR.findIdx? (fun x => x == some s) with
  | some i => .ok i
  | none => .error .valueError

/-- `ObspyCatalogMerger.ManageNewPicks`: returns the indices (into the
comparison pick list) of the picks whose identity is new, and the updated
regarded-phase counter.  `rt.setOrder` supplies the CPython set enumeration
order of `list(filter(None, set(com) - set(ref)))`. -/
def ManageNewPicks (rt : PyRuntime) (cfg : Configs) (RefEventPicks ComEventPicks : List Pick)
    (numRegardedPhases : ℤ) : Except PyErr (List Nat × ℤ) := do
  let refR ← exMap pickRemark RefEventPicks
  let comR ← exMap (comRemark cfg) ComEventPicks
  let newPicks := rt.setOrder (newPickSet refR comR)
  let numRegardedPhases' := numRegardedPhases + ((comR.length : ℤ) - (newPicks.length : ℤ))
  let newPicksIndex ← exMap (remarkIndex comR) newPicks
  .ok (newPicksIndex, numRegardedPhases')

/-- The tuple `(station_code, phase_hint, ReadExtra(pick))` computed for each
pick in the scan loops of `ReviewEventPicks`. -/
def keyAndW (pick : Pick) : Except PyErr (String × String × String) := do
  let w ← ReadExtra pick
  .ok (pick.station_code, pick.phase_hint, w)

/-- The inner body of the all-pairs scan in `ReviewEventPicks`: compare one
`trialPick` (with its already extracted key and weight) against `pick`; when
the keys agree and `float(w) > float(ww)` the trial pick's `resource_id` is
appended to the accumulator.  The key equality is tested before the floats are
parsed (Python's `and` short-circuits). -/
def scanStep (s p w : String) (trialId : String) (acc : List String) (pick : Pick) :
    Except PyErr (List String) := do
  let (ss, pp, ww) ← keyAndW pick
  if (s, p) = (ss, pp) then do
    let fw ← toFloat w
    let fww ← toFloat ww
    if fw > fww then .ok (acc ++ [trialId]) else .ok acc
  else
    .ok acc

/-- The all-pairs scan of `ReviewEventPicks` building `IgnoredResource_id`. -/
def scanIgnored (picks : List Pick) : Except PyErr (List String) :=
  exFoldl
    (fun acc trialPick => do
      let (s, p, w) ← keyAndW trialPick
      exFoldl (scanStep s p w trialPick.resource_id) acc picks)
    [] picks

/-- Literal embedding of Python's `for i, x in enumerate(lst): if rem(x):
lst.pop(i)`: the loop keeps its own running index `i` over the live list, so
after a `pop(i)` the element that shifts into position `i` is skipped.  The
iterator advances `i` once per iteration and stops as soon as `i` falls
outside the live list, so the loop makes at most `lst.length` iterations;
`fuel` is instantiated with the initial length, which therefore never runs
out before the index test does. -/
def popScanGo {α : Type} (rem : α → Bool) : Nat → Nat → List α → List α
  | 0, _, xs => xs
  | fuel + 1, i, xs =>
    match xs[i]? with
    | none => xs
    | some x =>
      if rem x then popScanGo rem fuel (i + 1) (xs.eraseIdx i)
      else popScanGo rem fuel (i + 1) xs

/-- The removal loop of `ReviewEventPicks` on one list. -/
def popScan {α : Type} (rem : α → Bool) (xs : List α) : List α :=
  popScanGo rem xs.length 0 xs

/-- Recursive characterization of `popScan`: an element that tests positive is
dropped and its immediate successor is kept unexamined (it shifted into the
already-visited position). -/
def skipScan {α : Type} (rem : α → Bool) : List α → List α
  | [] => []
  | a :: t =>
    if rem a then
      match t with
      | [] => []
      | b :: t' => b :: skipScan rem t'
    else a :: skipScan rem t

/-- `ObspyCatalogMerger.ReviewEventPicks`: the config-gated conflict-resolution
pass.  Builds `IgnoredResource_id` by the all-pairs scan, then runs the three
pop-while-iterating removal loops: picks and amplitudes are tested on their
own `resource_id`, arrivals on their `pick_id`. -/
def ReviewEventPicks (ev : Event) : Except PyErr Event := do
  let ignored ← scanIgnored ev.picks
  let picks' := popScan (fun p => ignored.contains p.resource_id) ev.picks
  let amplitudes' := popScan (fun a => ignored.contains a.resource_id) ev.amplitudes
  let arrivals' := popScan (fun a => ignored.contains a.pick_id) ev.preferred_origin.arrivals
  .ok { ev with
        picks := picks'
        amplitudes := amplitudes'
        preferred_origin := { ev.preferred_origin with arrivals := arrivals' } }

/-- The numeric weight of a pick: `float(ReadExtra(pick))`. -/
def pickFloatW (pick : Pick) : Except PyErr ℚ := do
  let w ← ReadExtra pick
  toFloat w

/-- One iteration of the `for newPickIndex in newPicksIndex` loop of
`UpdateEvent`: append the comparison pick and every comparison arrival and
amplitude whose `pick_id` matches its `resource_id`, and bump the matching
phase counter. -/
def updStep (ComEvent : Event)
    (st : List Pick × List Arrival × List Amplitude × ℤ × ℤ × ℤ) (i : Nat) :
    Except PyErr (List Pick × List Arrival × List Amplitude × ℤ × ℤ × ℤ) :=
  match ComEvent.picks[i]? with
  | none => .error .indexError
  | some newPick =>
    let (pks, arrs, amps, nP, nS, nA) := st
    let rid := newPick.resource_id
    let newArrivals := ComEvent.preferred_origin.arrivals.filter (fun a => a.pick_id == rid)
    let newAmplitudes := ComEvent.amplitudes.filter (fun a => a.pick_id == rid)
    let pks' := pks ++ [newPick]
    let arrs' := arrs ++ newArrivals
    let amps' := amps ++ newAmplitudes
    if pyIn "P" newPick.phase_hint then .ok (pks', arrs', amps', nP + 1, nS, nA)
    else if pyIn "S" newPick.phase_hint then .ok (pks', arrs', amps', nP, nS + 1, nA)
    else if pyIn "AML" newPick.phase_hint then .ok (pks', arrs', amps', nP, nS, nA + 1)
    else .ok (pks', arrs', amps', nP, nS, nA)

/-- `ObspyCatalogMerger.UpdateEvent`: fold the new comparison picks (with their
arrivals and amplitudes) into the reference event, update the counters, and
run `ReviewEventPicks` when `ReplaceNewPhaseOnlyWithHigherWeight` is set.
Returns `(RefEvent, numNewPhaseP, numNewPhaseS, numRegardedPhases,
numNewAmplitudes)` in the source's order. -/
def UpdateEvent (rt : PyRuntime) (cfg : Configs) (RefEvent ComEvent : Event)
    (numNewPhaseP numNewPhaseS numRegardedPhases numNewAmplitudes : ℤ) :
    Except PyErr (Event × ℤ × ℤ × ℤ × ℤ) := do
  let (newPicksIndex, numRegardedPhases') ←
    ManageNewPicks rt cfg RefEvent.picks ComEvent.picks numRegardedPhases
  let (pks, arrs, amps, nP, nS, nA) ←
    exFoldl (updStep ComEvent)
      (RefEvent.picks, RefEvent.preferred_origin.arrivals, RefEvent.amplitudes,
        numNewPhaseP, numNewPhaseS, numNewAmplitudes)
      newPicksIndex
  let ev : Event :=
    { RefEvent with
      picks := pks
      amplitudes := amps
      preferred_origin := { RefEvent.preferred_origin with arrivals := arrs } }
  let ev ← if cfg.ReplaceNewPhaseOnlyWithHigherWeight then ReviewEventPicks ev else pure ev
  .ok (ev, nP, nS, numRegardedPhases', nA)

/-- How one reference event fares in `MergeCatalog`, at zero counters: the
comparison catalog is scanned in order, the first event passing `ComputeDiff`
is merged in (`UpdateEvent`), and the flag records whether a match was found. -/
def mergeOne (rt : PyRuntime) (cfg : Configs) (gps : ℚ → ℚ → ℚ → ℚ → ℚ)
    (ComCat : List Event) (RefEvent : Event) : Except PyErr (Event × Bool) :=
  match ComCat.find? (fun ce => ComputeDiff cfg gps RefEvent ce) with
  | none => .ok (RefEvent, false)
  | some ce => do
    let (ev, _, _, _, _) ← UpdateEvent rt cfg RefEvent ce 0 0 0 0
    .ok (ev, true)

/-- The main loop of `MergeCatalog`, threading
`(TarCat, ComEventsCat, numCommonEvents, numNewPhaseP, numNewPhaseS,
numNewAmplitudes, numRegardedPhases)` through the reference events. -/
def MergeLoop (rt : PyRuntime) (cfg : Configs) (gps : ℚ → ℚ → ℚ → ℚ → ℚ)
    (ComCat : List Event) :
    List Event → List Event × List Event × ℤ × ℤ × ℤ × ℤ × ℤ →
    Except PyErr (List Event × List Event × ℤ × ℤ × ℤ × ℤ × ℤ)
  | [], st => .ok st
  | RefEvent :: rest, (tar, comEvts, nC, nP, nS, nA, nR) =>
    match ComCat.find? (fun ce => ComputeDiff cfg gps RefEvent ce) with
    | none => MergeLoop rt cfg gps ComCat rest (tar ++ [RefEvent], comEvts, nC, nP, nS, nA, nR)
    | some ce => do
      let (ev, nP', nS', nR', nA') ← UpdateEvent rt cfg RefEvent ce nP nS nR nA
      MergeLoop rt cfg gps ComCat rest
        (tar ++ [ev], comEvts ++ [ev], nC + 1, nP', nS', nA', nR')

/-- `ObspyCatalogMerger.MergeCatalog` (the in-memory part, I/O dropped):
starting from empty output catalogs and zero counters, process every
reference event. -/
def MergeCatalog (rt : PyRuntime) (cfg : Configs) (gps : ℚ → ℚ → ℚ → ℚ → ℚ)
    (RefCat ComCat : List Event) :
    Except PyErr (List Event × List Event × ℤ × ℤ × ℤ × ℤ × ℤ) :=
  MergeLoop rt cfg gps ComCat RefCat ([], [], 0, 0, 0, 0, 0)

/-! ### Helper lemmas about the effectful combinators -/

theorem exMap_ok_length {α β : Type} {f : α → Except PyErr β} :
    ∀ {l : List α} {r : List β}, exMap f l = .ok r → r.length = l.length := by
  intro l
  induction l with
  | nil => intro r h; simp [exMap] at h; simp [← h]
  | cons a t ih =>
    intro r h
    cases h1 : f a with
    | error e => rw [exMap, h1] at h; exact Except.noConfusion h
    | ok b =>
      rw [exMap, h1] at h
      cases h2 : exMap f t with
      | error e => rw [h2] at h; exact Except.noConfusion h
      | ok bs =>
        rw [h2] at h
        have hr : r = b :: bs := (Except.ok.inj h).symm
        subst hr
        simp [ih h2]

theorem exMap_ok_fwd {α β : Type} {f : α → Except PyErr β} :
    ∀ {l : List α} {r : List β}, exMap f l = .ok r →
      ∀ (i : Nat) (a : α), l[i]? = some a → ∃ b : β, f a = .ok b ∧ r[i]? = some b := by
  intro l
  induction l with
  | nil => intro r _ i a ha; simp at ha
  | cons x t ih =>
    intro r h i a ha
    cases h1 : f x with
    | error e => rw [exMap, h1] at h; exact Except.noConfusion h
    | ok b =>
      rw [exMap, h1] at h
      cases h2 : exMap f t with
      | error e => rw [h2] at h; exact Except.noConfusion h
      | ok bs =>
        rw [h2] at h
        have hr : r = b :: bs := (Except.ok.inj h).symm
        subst hr
        cases i with
        | zero =>
          simp at ha
          subst ha
          exact ⟨b, h1, by simp⟩
        | succ j =>
          simp at ha
          obtain ⟨c, hc1, hc2⟩ := ih h2 j a ha
          exact ⟨c, hc1, by simpa using hc2⟩

theorem exMap_ok_mem_rev {α β : Type} {f : α → Except PyErr β} :
    ∀ {l : List α} {r : List β}, exMap f l = .ok r →
      ∀ b, b ∈ r → ∃ a, a ∈ l ∧ f a = .ok b := by
  intro l
  induction l with
  | nil => intro r h b hb; simp [exMap] at h; subst h; simp at hb
  | cons x t ih =>
    intro r h b hb
    cases h1 : f x with
    | error e => rw [exMap, h1] at h; exact Except.noConfusion h
    | ok c =>
      rw [exMap, h1] at h
      cases h2 : exMap f t with
      | error e => rw [h2] at h; exact Except.noConfusion h
      | ok cs =>
        rw [h2] at h
        have hr : r = c :: cs := (Except.ok.inj h).symm
        subst hr
        rcases List.mem_cons.mp hb with hbc | hbs
        · exact ⟨x, List.mem_cons_self x t, by rw [h1, hbc]⟩
        · obtain ⟨a, ha1, ha2⟩ := ih h2 b hbs
          exact ⟨a, List.mem_cons_of_mem x ha1, ha2⟩

theorem findIdxQ_spec {α : Type} {p : α → Bool} :
    ∀ {l : List α} {i : Nat}, l.findIdx? p = some i →
      ∃ x, l[i]? = some x ∧ p x = true := by
  intro l
  induction l with
  | nil => intro i h; simp at h
  | cons a t ih =>
    intro i h
    by_cases hp : p a = true
    · rw [List.findIdx?_cons] at h
      rw [hp] at h
      simp at h
      subst h
      exact ⟨a, by simp, hp⟩
    · rw [List.findIdx?_cons] at h
      rw [Bool.eq_false_iff.mpr hp] at h
      simp at h
      obtain ⟨j, hj, hji⟩ := h
      obtain ⟨x, hx1, hx2⟩ := ih hj
      exact ⟨x, by rw [← hji]; simpa using hx1, hx2⟩

/-! ### The pop-while-iterating loop: bridge to its recursive characterization -/

theorem getElemQ_append_cons {α : Type} (a : α) :
    ∀ (pre t : List α), (pre ++ a :: t)[pre.length]? = some a := by
  intro pre
  induction pre with
  | nil => intro t; simp
  | cons x xs ih => intro t; simpa using ih t

theorem eraseIdx_append_cons {α : Type} (a : α) :
    ∀ (pre t : List α), (pre ++ a :: t).eraseIdx pre.length = pre ++ t := by
  intro pre
  induction pre with
  | nil => intro t; simp
  | cons x xs ih => intro t; simp [List.eraseIdx, ih t]

theorem skipScan_one {α : Type} (rem : α → Bool) (a : α) :
    skipScan rem [a] = if rem a then [] else [a] := by
  conv_lhs => unfold skipScan
  rfl

theorem skipScan_two {α : Type} (rem : α → Bool) (a b : α) (t : List α) :
    skipScan rem (a :: b :: t) =
      if rem a then b :: skipScan rem t else a :: skipScan rem (b :: t) := by
  conv_lhs => unfold skipScan

theorem skipScan_pos_nil {α : Type} {rem : α → Bool} {a : α} (h : rem a = true) :
    skipScan rem [a] = [] := by
  rw [skipScan_one, if_pos h]

theorem skipScan_pos_cons {α : Type} {rem : α → Bool} {a b : α} (t : List α)
    (h : rem a = true) : skipScan rem (a :: b :: t) = b :: skipScan rem t := by
  rw [skipScan_two, if_pos h]

theorem skipScan_neg {α : Type} {rem : α → Bool} {a : α} (t : List α)
    (h : rem a = false) : skipScan rem (a :: t) = a :: skipScan rem t := by
  cases t with
  | nil =>
    rw [skipScan_one, if_neg (by simp [h])]
    conv_rhs => unfold skipScan
  | cons b t' => rw [skipScan_two, if_neg (by simp [h])]

theorem popScanGo_red_none {α : Type} (rem : α → Bool) (fuel i : Nat) (xs : List α)
    (h : xs[i]? = none) : popScanGo rem fuel i xs = xs := by
  cases fuel with
  | zero => rfl
  | succ n => rw [popScanGo, h]

theorem popScanGo_red_some {α : Type} (rem : α → Bool) (fuel i : Nat) (xs : List α) (x : α)
    (h : xs[i]? = some x) :
    popScanGo rem (fuel + 1) i xs =
      if rem x then popScanGo rem fuel (i + 1) (xs.eraseIdx i)
      else popScanGo rem fuel (i + 1) xs := by
  rw [popScanGo, h]

theorem popScanGo_eq_skipScan_aux {α : Type} (rem : α → Bool) :
    ∀ (n : Nat) (rest : List α), rest.length ≤ n →
      ∀ pre : List α, popScanGo rem n pre.length (pre ++ rest) = pre ++ skipScan rem rest := by
  intro n
  induction n with
  | zero =>
    intro rest hlen pre
    have : rest = [] := List.length_eq_zero.mp (Nat.le_zero.mp hlen)
    subst this
    simp [popScanGo, skipScan]
  | succ n ih =>
    intro rest hlen pre
    cases rest with
    | nil =>
      rw [popScanGo_red_none rem (n + 1) pre.length _ (by apply List.getElem?_eq_none; simp)]
      simp [skipScan]
    | cons a t =>
      rw [popScanGo_red_some rem n pre.length _ a (getElemQ_append_cons a pre t)]
      by_cases hr : rem a = true
      · rw [if_pos hr]
        rw [eraseIdx_append_cons]
        cases t with
        | nil =>
          rw [popScanGo_red_none rem n (pre.length + 1) _
            (by apply List.getElem?_eq_none; simp)]
          rw [skipScan_pos_nil hr]
        | cons b t' =>
          have hpre : pre.length + 1 = (pre ++ [b]).length := by simp
          have happ : pre ++ b :: t' = (pre ++ [b]) ++ t' := by simp
          rw [hpre, happ, ih t' (by simp at hlen; omega) (pre ++ [b])]
          rw [skipScan_pos_cons t' hr]
          simp only [List.append_assoc, List.singleton_append]
      · rw [if_neg hr]
        have hpre : pre.length + 1 = (pre ++ [a]).length := by simp
        have happ : pre ++ a :: t = (pre ++ [a]) ++ t := by simp
        rw [hpre, happ, ih t (by simp at hlen; omega) (pre ++ [a])]
        rw [skipScan_neg t (Bool.eq_false_iff.mpr hr)]
        simp only [List.append_assoc, List.singleton_append]

theorem popScan_eq_skipScan {α : Type} (rem : α → Bool) (xs : List α) :
    popScan rem xs = skipScan rem xs := by
  have h := popScanGo_eq_skipScan_aux rem xs.length xs le_rfl []
  simpa [popScan] using h

theorem skipScan_eq_self {α : Type} {rem : α → Bool} :
    ∀ {xs : List α}, (∀ x ∈ xs, rem x = false) → skipScan rem xs = xs := by
  intro xs
  induction xs with
  | nil => intro _; rfl
  | cons a t ih =>
    intro h
    have ha : rem a = false := h a (List.mem_cons_self a t)
    rw [skipScan_neg t ha]
    simp [ih (fun x hx => h x (List.mem_cons_of_mem a hx))]

/-! ### Concrete fixtures used by counterexamples and witnesses -/

/-- A pick whose extra dict stores a scalar weight string. -/
def wPick (st ph rid w : String) : Pick :=
  { station_code := st, phase_hint := ph, resource_id := rid,
    extra := some [("nordic_pick_weight", .scalar w)] }

/-- An origin at the coordinate origin with no arrivals. -/
def origin0 : Origin := { time := 0, latitude := 0, longitude := 0, arrivals := [] }

/-- Two picks at the same station and phase with weights "1" and "2". -/
def evTwo : Event :=
  { preferred_origin := origin0,
    picks := [wPick "STA1" "P" "p1" "1", wPick "STA1" "P" "p2" "2"],
    amplitudes := [] }

/-- Like `evTwo` but carrying an amplitude that references the weight-"2"
pick (`pick_id = "p2"`) under its own distinct `resource_id`. -/
def evTwoAmp : Event :=
  { preferred_origin := origin0,
    picks := [wPick "STA1" "P" "p1" "1", wPick "STA1" "P" "p2" "2"],
    amplitudes := [{ resource_id := "amp1", pick_id := "p2" }] }

/-- Three picks sharing one (station, phase) key with weights "1", "1", "0":
the two weight-"1" picks are both marked for removal and are adjacent. -/
def evThree : Event :=
  { preferred_origin := origin0,
    picks := [wPick "STA1" "P" "pa" "1", wPick "STA1" "P" "pb" "1",
              wPick "STA1" "P" "pc" "0"],
    amplitudes := [] }

/-- A configuration accepting all phase categories, with the conflict
resolver disabled. -/
def cfgAll : Configs :=
  { OriginTimeShift := 5
    EpicentralShift := 5
    AddPhaseP := true
    AddPhaseS := true
    AddAmplitude := true
    ReplaceNewPhaseOnlyWithHigherWeight := false
    OutputCommonEventsCatalog := true }

/-! ### Claim C5 -/

/-- Claim C5: `ComputeDiff` returns true iff the absolute origin-time
difference is strictly below `OriginTimeShift` and the absolute epicentral
distance in km is strictly below `EpicentralShift`; it returns false exactly
when either threshold is reached or exceeded, so boundary values are
non-matches. -/
theorem claim_C5_thm (cfg : Configs) (gps : ℚ → ℚ → ℚ → ℚ → ℚ) (re ce : Event) :
    (ComputeDiff cfg gps re ce = true ↔
      |re.preferred_origin.time - ce.preferred_origin.time| < cfg.OriginTimeShift ∧
      |gps re.preferred_origin.latitude re.preferred_origin.longitude
          ce.preferred_origin.latitude ce.preferred_origin.longitude * (1 / 1000)| <
        cfg.EpicentralShift) ∧
    (ComputeDiff cfg gps re ce = false ↔
      (cfg.OriginTimeShift ≤ |re.preferred_origin.time - ce.preferred_origin.time| ∨
        cfg.EpicentralShift ≤
          |gps re.preferred_origin.latitude re.preferred_origin.longitude
              ce.preferred_origin.latitude ce.preferred_origin.longitude * (1 / 1000)|)) := by
  constructor
  · unfold ComputeDiff
    simp
  · unfold ComputeDiff
    rw [decide_eq_false_iff_not, not_and_or, not_lt, not_lt]

/-! ### Claim C7 -/

/-- A pick whose stored weight is a dict without a `"value"` key. -/
def badWeightPick : Pick :=
  { station_code := "STA9", phase_hint := "P", resource_id := "bw1",
    extra := some [("nordic_pick_weight", .composite [("namespace", "ns")])] }

/-- Claim C7 counterexample: `ReadExtra` is claimed never to raise, but on a
pick whose stored weight is a dict lacking the `"value"` key,
`weight["value"]` raises `KeyError`, which the `except AttributeError`
handler does not catch. -/
theorem claim_C7_cex : ReadExtra badWeightPick = .error .keyError := by
  with_unfolding_all rfl

/-- Claim C7 (amended): `ReadExtra` returns "0" when the pick has no `extra`
container (the `AttributeError` is caught) or when the weight entry is
absent (`.get` default); it returns the dict's `"value"` field when the
stored weight is a dict containing one; but when the stored weight is a dict
without a `"value"` key it raises an uncaught `KeyError` — only
`AttributeError` is silenced, not every failure. -/
theorem claim_C7_thm (p : Pick) :
    (p.extra = none → ReadExtra p = .ok "0") ∧
    (∀ m, p.extra = some m → List.lookup "nordic_pick_weight" m = none →
      ReadExtra p = .ok "0") ∧
    (∀ m s, p.extra = some m →
      List.lookup "nordic_pick_weight" m = some (.scalar s) → ReadExtra p = .ok s) ∧
    (∀ m d v, p.extra = some m →
      List.lookup "nordic_pick_weight" m = some (.composite d) →
      List.lookup "value" d = some v → ReadExtra p = .ok v) ∧
    (∀ m d, p.extra = some m →
      List.lookup "nordic_pick_weight" m = some (.composite d) →
      List.lookup "value" d = none → ReadExtra p = .error .keyError) := by
  refine ⟨?_, ?_, ?_, ?_, ?_⟩
  · intro h
    simp [ReadExtra, ReadExtraBody, h]
  · intro m hm hl
    simp [ReadExtra, ReadExtraBody, hm, hl]
  · intro m s hm hl
    simp [ReadExtra, ReadExtraBody, hm, hl]
  · intro m d v hm hl hv
    simp [ReadExtra, ReadExtraBody, hm, hl, hv]
  · intro m d hm hl hv
    simp [ReadExtra, ReadExtraBody, hm, hl, hv]

/-- A pick without an `extra` attribute. -/
def noExtraPick : Pick :=
  { station_code := "STA8", phase_hint := "P", resource_id := "ne1", extra := none }

/-- Witness for the amended claim C7 at a concrete pick. -/
theorem claim_C7_wit : ReadExtra noExtraPick = .ok "0" :=
  (claim_C7_thm noExtraPick).1 rfl

/-! ### Claim C1 -/

/-- Claim C1 counterexample: in an event with exactly two picks sharing one
(station, phase) key and weights "1" and "2", the pass keeps the weight-"1"
pick, not the weight-"2" one: the scan marks the pick whose own weight is
larger (`float(w) > float(ww)` appends `trialPick`), so the higher-weight
pick is removed. -/
theorem claim_C1_cex :
    (ReviewEventPicks evTwo).map (fun e => e.picks.map Pick.resource_id) = .ok ["p1"] ∧
    ReadExtra (wPick "STA1" "P" "p1" "1") = .ok "1" ∧
    ReadExtra (wPick "STA1" "P" "p2" "2") = .ok "2" := by
  refine ⟨?_, ?_, ?_⟩ <;> with_unfolding_all rfl

/-! ### Claim C2 -/

/-- Claim C2 (code bug): after `ReviewEventPicks` removes the weight-"2" pick
"p2", the amplitude referencing "p2" survives, because the amplitude removal
loop tests `amplitude.resource_id` (the amplitude's own id) against the
removal set instead of `amplitude.pick_id`; the surviving amplitude then
references a pick no longer in the pick list. -/
theorem claim_C2_thm :
    (ReviewEventPicks evTwoAmp).map
        (fun e => (e.picks.map Pick.resource_id, e.amplitudes.map Amplitude.pick_id)) =
      .ok (["p1"], ["p2"]) := by
  with_unfolding_all rfl

/-! ### Claim C3 -/

/-- Claim C3 (code bug): on three same-key picks with weights "1", "1", "0",
the scan marks both weight-"1" picks ("pa" and "pb"), but the
pop-while-iterating removal loop only removes "pa": popping shifts "pb" into
the already-visited position and the loop skips it, so a pick whose identity
is in the removal set survives the pass. -/
theorem claim_C3_thm :
    scanIgnored evThree.picks = .ok ["pa", "pb"] ∧
    (ReviewEventPicks evThree).map (fun e => e.picks.map Pick.resource_id) =
      .ok ["pb", "pc"] := by
  refine ⟨?_, ?_⟩ <;> with_unfolding_all rfl

/-! ### Claims about `ManageNewPicks`: helper lemmas -/

theorem firstDedup_subset : ∀ {l : List String} {a : String}, a ∈ firstDedup l → a ∈ l := by
  intro l
  induction l with
  | nil => intro a h; simp [firstDedup] at h
  | cons x t ih =>
    intro a h
    rw [firstDedup] at h
    rcases List.mem_cons.mp h with hx | hf
    · exact hx ▸ List.mem_cons_self x t
    · exact List.mem_cons_of_mem x (ih (List.mem_filter.mp hf).1)

theorem comRemark_of_refRemarks (cfg : Configs) :
    ∀ (picks : List Pick) (refR : List String), exMap pickRemark picks = .ok refR →
      ∃ comR : List (Option String), exMap (comRemark cfg) picks = .ok comR ∧
        comR.length = picks.length ∧
        (∀ s : String, some s ∈ comR → s ∈ refR) := by
  intro picks
  induction picks with
  | nil =>
    intro refR h
    exact ⟨[], rfl, rfl, by intro s hs; simp at hs⟩
  | cons p t ih =>
    intro refR h
    cases h1 : pickRemark p with
    | error e => rw [exMap, h1] at h; exact Except.noConfusion h
    | ok r =>
      rw [exMap, h1] at h
      cases h2 : exMap pickRemark t with
      | error e => rw [h2] at h; exact Except.noConfusion h
      | ok rs =>
        rw [h2] at h
        have hr : refR = r :: rs := (Except.ok.inj h).symm
        subst hr
        obtain ⟨comR', hc, hlen, hmem⟩ := ih rs h2
        by_cases hf : FilterPhase cfg p = true
        · refine ⟨some r :: comR', ?_, by simp [hlen], ?_⟩
          · rw [exMap]
            have : comRemark cfg p = .ok (some r) := by
              rw [comRemark, if_pos hf, h1]
              rfl
            rw [this, hc]
            rfl
          · intro s hs
            rcases List.mem_cons.mp hs with hx | hx
            · exact (Option.some.inj hx) ▸ List.mem_cons_self r rs
            · exact List.mem_cons_of_mem r (hmem s hx)
        · refine ⟨none :: comR', ?_, by simp [hlen], ?_⟩
          · rw [exMap]
            have : comRemark cfg p = .ok none := by
              rw [comRemark, if_neg hf]
            rw [this, hc]
            rfl
          · intro s hs
            rcases List.mem_cons.mp hs with hx | hx
            · exact Option.noConfusion hx
            · exact List.mem_cons_of_mem r (hmem s hx)

theorem newPickSet_self_nil {refR : List String} {comR : List (Option String)}
    (hmem : ∀ s : String, some s ∈ comR → s ∈ refR) : newPickSet refR comR = [] := by
  rw [newPickSet]
  rw [List.filter_eq_nil_iff]
  intro a ha
  have h1 : a ∈ comR.filterMap id := firstDedup_subset ha
  have h2 : some a ∈ comR := by
    obtain ⟨x, hx1, hx2⟩ := List.mem_filterMap.mp h1
    have hxa : x = some a := hx2
    exact hxa ▸ hx1
  have h3 : a ∈ refR := hmem a h2
  simp [List.contains, h3, List.elem_iff]

/-! ### Claim C9 -/

/-- Claim C9: running `ManageNewPicks` with the same pick list as both
reference and comparison yields an empty new-pick index list and increments
the regarded-phase counter by exactly the number of picks, for every valid
set enumeration order.  (The hypothesis says the reference remark
comprehension succeeds, i.e. every pick's weight is readable.) -/
theorem claim_C9_thm (rt : PyRuntime) (hrt : SetOrderOK rt) (cfg : Configs)
    (picks : List Pick) (refR : List String) (nReg : ℤ)
    (h : exMap pickRemark picks = .ok refR) :
    ManageNewPicks rt cfg picks picks nReg = .ok ([], nReg + (picks.length : ℤ)) := by
  obtain ⟨comR, hc, hlen, hmem⟩ := comRemark_of_refRemarks cfg picks refR h
  have hns : newPickSet refR comR = [] := newPickSet_self_nil hmem
  have hso : rt.setOrder (newPickSet refR comR) = [] := by
    rw [hns]
    exact List.Perm.eq_nil (hrt [])
  unfold ManageNewPicks
  rw [h]
  show (do
    let comRv ← exMap (comRemark cfg) picks
    let newPicks := rt.setOrder (newPickSet refR comRv)
    let nReg' := nReg + ((comRv.length : ℤ) - (newPicks.length : ℤ))
    let idx ← exMap (remarkIndex comRv) newPicks
    Except.ok (idx, nReg')) = .ok ([], nReg + (picks.length : ℤ))
  rw [hc]
  show (do
    let idx ← exMap (remarkIndex comR) (rt.setOrder (newPickSet refR comR))
    Except.ok (idx, nReg + ((comR.length : ℤ) - (((rt.setOrder (newPickSet refR comR)).length : ℤ))))) =
      .ok ([], nReg + (picks.length : ℤ))
  rw [hso]
  show Except.ok (([] : List Nat), nReg + ((comR.length : ℤ) - ((0 : ℕ) : ℤ))) =
    .ok ([], nReg + (picks.length : ℤ))
  rw [hlen]
  norm_num

/-- Witness for claim C9 at a one-pick event. -/
theorem claim_C9_wit :
    ManageNewPicks idRt cfgAll [wPick "STA1" "P" "p1" "1"] [wPick "STA1" "P" "p1" "1"] 0 =
      .ok ([], 0 + ((1 : ℕ) : ℤ)) :=
  claim_C9_thm idRt idRt_ok cfgAll [wPick "STA1" "P" "p1" "1"] ["STA1_P_1"] 0
    (by with_unfolding_all rfl)

/-! ### Claim C8 -/

theorem FilterPhase_S_false {cfg : Configs} {p : Pick}
    (h1 : cfg.AddPhaseS = false) (h2 : pyIn "S" p.phase_hint = true) :
    FilterPhase cfg p = false := by
  rw [FilterPhase]
  by_cases hp : (!cfg.AddPhaseP && pyIn "P" p.phase_hint) = true
  · rw [if_pos hp]
  · rw [if_neg hp, if_pos (by rw [h1, h2]; rfl)]

/-- Claim C8: a successful `ManageNewPicks` call increments the
regarded-phase counter by exactly the number of comparison picks (filtered
ones included) minus the number of returned new indices; and with `AddPhaseS`
disabled, the position of any comparison pick whose phase hint contains "S"
is never among the returned indices. -/
theorem claim_C8_thm (rt : PyRuntime) (cfg : Configs) (refPicks comPicks : List Pick)
    (nReg : ℤ) (idx : List Nat) (nReg' : ℤ)
    (h : ManageNewPicks rt cfg refPicks comPicks nReg = .ok (idx, nReg')) :
    nReg' = nReg + ((comPicks.length : ℤ) - (idx.length : ℤ)) ∧
    (cfg.AddPhaseS = false →
      ∀ (i : Nat) (p : Pick), comPicks[i]? = some p → pyIn "S" p.phase_hint = true →
        ¬ i ∈ idx) := by
  unfold ManageNewPicks at h
  cases h1 : exMap pickRemark refPicks with
  | error e => rw [h1] at h; exact Except.noConfusion h
  | ok refR =>
    rw [h1] at h
    cases h2 : exMap (comRemark cfg) comPicks with
    | error e => rw [h2] at h; exact Except.noConfusion h
    | ok comR =>
      rw [h2] at h
      replace h : (do
          let newPicksIndex ← exMap (remarkIndex comR) (rt.setOrder (newPickSet refR comR))
          Except.ok (newPicksIndex,
            nReg + ((comR.length : ℤ) -
              (((rt.setOrder (newPickSet refR comR)).length : ℤ))))) =
            Except.ok (idx, nReg') := h
      cases h3 : exMap (remarkIndex comR) (rt.setOrder (newPickSet refR comR)) with
      | error e => rw [h3] at h; exact Except.noConfusion h
      | ok idx0 =>
        rw [h3] at h
        replace h : (Except.ok (idx0,
            nReg + ((comR.length : ℤ) -
              (((rt.setOrder (newPickSet refR comR)).length : ℤ)))) :
              Except PyErr (List Nat × ℤ)) =
            Except.ok (idx, nReg') := h
        have hp2 := Except.ok.inj h
        rw [Prod.mk.injEq] at hp2
        obtain ⟨hidx, hcount⟩ := hp2
        subst hidx
        constructor
        · have hlenC : comR.length = comPicks.length := exMap_ok_length h2
          have hlenI : idx0.length = (rt.setOrder (newPickSet refR comR)).length :=
            exMap_ok_length h3
          rw [← hcount, hlenC, hlenI]
        · intro hS i p hp hhint hmem
          obtain ⟨s, hs1, hs2⟩ := exMap_ok_mem_rev h3 i hmem
          obtain ⟨b, hb1, hb2⟩ := exMap_ok_fwd h2 i p hp
          have hbn : b = none := by
            rw [comRemark, if_neg (by rw [FilterPhase_S_false hS hhint]; simp)] at hb1
            exact (Except.ok.inj hb1).symm
          subst hbn
          rw [remarkIndex] at hs2
          cases hf : comR.findIdx? (fun x => x == some s) with
          | none => rw [hf] at hs2; exact Except.noConfusion hs2
          | some j =>
            rw [hf] at hs2
            have hji : j = i := Except.ok.inj hs2
            subst hji
            obtain ⟨x, hx1, hx2⟩ := findIdxQ_spec hf
            rw [hb2] at hx1
            have hxn : x = none := (Option.some.inj hx1).symm
            subst hxn
            simp at hx2

/-! ### Claim C4 -/

/-- The first-occurrence index list of the distinct new identities, in
first-occurrence (comparison list) order: the order the claim asserts. -/
def canonNewIdx (refR : List String) (comR : List (Option String)) : List Nat :=
  (newPickSet refR comR).filterMap (fun s => comR.findIdx? (fun x => x == some s))

theorem findIdxQ_cons_eq {α : Type} (p : α → Bool) (a : α) (l : List α) :
    (a :: l).findIdx? p = if p a then some 0 else (l.findIdx? p).map (· + 1) := by
  simp [List.findIdx?_cons]

theorem remarkIndex_red_none {comR : List (Option String)} {s : String}
    (h : comR.findIdx? (fun x => x == some s) = none) :
    remarkIndex comR s = .error .valueError := by
  rw [remarkIndex, h]

theorem remarkIndex_red_some {comR : List (Option String)} {s : String} {j : Nat}
    (h : comR.findIdx? (fun x => x == some s) = some j) :
    remarkIndex comR s = .ok j := by
  rw [remarkIndex, h]

theorem exMap_remarkIndex_filterMap {comR : List (Option String)} :
    ∀ {L : List String} {idx : List Nat}, exMap (remarkIndex comR) L = .ok idx →
      idx = L.filterMap (fun s => comR.findIdx? (fun x => x == some s)) := by
  intro L
  induction L with
  | nil =>
    intro idx h
    simpa [exMap] using (Except.ok.inj h).symm
  | cons s t ih =>
    intro idx h
    cases hf : comR.findIdx? (fun x => x == some s) with
    | none =>
      rw [exMap, remarkIndex_red_none hf] at h
      exact Except.noConfusion h
    | some j =>
      rw [exMap, remarkIndex_red_some hf] at h
      cases h2 : exMap (remarkIndex comR) t with
      | error e => rw [h2] at h; exact Except.noConfusion h
      | ok idx' =>
        rw [h2] at h
        have : idx = j :: idx' := (Except.ok.inj h).symm
        subst this
        simp [List.filterMap_cons, hf, ← ih h2]

theorem firstDedup_idx_sorted :
    ∀ l : List (Option String),
      List.Pairwise (· < ·)
        ((firstDedup (l.filterMap id)).filterMap
          (fun s => l.findIdx? (fun x => x == some s))) := by
  intro l
  induction l with
  | nil => simp [firstDedup]
  | cons a t ih =>
    cases a with
    | none =>
      have hfm : (none :: t).filterMap (id : Option String → Option String) =
          t.filterMap id := rfl
      rw [hfm]
      have hcong : (firstDedup (t.filterMap id)).filterMap
            (fun s => (none :: t).findIdx? (fun x => x == some s)) =
          ((firstDedup (t.filterMap id)).filterMap
            (fun s => t.findIdx? (fun x => x == some s))).map (· + 1) := by
        rw [List.map_filterMap]
        apply List.filterMap_congr
        intro s _
        rw [findIdxQ_cons_eq]
        simp
      rw [hcong]
      rw [List.pairwise_map]
      exact (ih.imp (by omega))
    | some v =>
      rw [List.filterMap_cons]
      show List.Pairwise (· < ·)
        ((firstDedup (v :: t.filterMap id)).filterMap
          (fun s => (some v :: t).findIdx? (fun x => x == some s)))
      rw [firstDedup]
      rw [List.filterMap_cons]
      have hv : (some v :: t).findIdx? (fun x => x == some v) = some 0 := by
        rw [findIdxQ_cons_eq]
        simp
      rw [hv]
      have htail : ((firstDedup (t.filterMap id)).filter
            (fun b => !(b == v))).filterMap
            (fun s => (some v :: t).findIdx? (fun x => x == some s)) =
          (((firstDedup (t.filterMap id)).filter
            (fun b => !(b == v))).filterMap
            (fun s => t.findIdx? (fun x => x == some s))).map (· + 1) := by
        rw [List.map_filterMap]
        apply List.filterMap_congr
        intro s hs
        have hsv : (s == v) = false := by
          have := (List.mem_filter.mp hs).2
          simpa using this
        have hne : s ≠ v := by simpa using hsv
        rw [findIdxQ_cons_eq]
        have hvs : (some v == some s) = false := by
          simp
          exact fun h2 => hne h2.symm
        rw [hvs]
        simp
      rw [htail]
      constructor
      · intro y hy
        rw [List.mem_map] at hy
        obtain ⟨z, _, hz2⟩ := hy
        omega
      · rw [List.pairwise_map]
        have hsub : ((firstDedup (t.filterMap id)).filter
              (fun b => !(b == v))).filterMap
              (fun s => t.findIdx? (fun x => x == some s)) |>.Sublist
            ((firstDedup (t.filterMap id)).filterMap
              (fun s => t.findIdx? (fun x => x == some s))) :=
          List.Sublist.filterMap _ (List.filter_sublist _)
        exact (List.Pairwise.sublist hsub ih).imp (by omega)

/-- Claim C4 counterexample: with the (realizable) set enumeration that
reverses first-occurrence order, `ManageNewPicks` returns the new indices as
`[1, 0]`, which is not strictly increasing, so the returned order does not
preserve the comparison list's original order. -/
theorem claim_C4_cex :
    SetOrderOK revRt ∧
    ManageNewPicks revRt cfgAll [] [wPick "AA" "P" "x" "0", wPick "BB" "P" "y" "0"] 0 =
      .ok ([1, 0], 0) ∧
    ¬ List.Pairwise (· < ·) [1, 0] :=
  ⟨revRt_ok, by with_unfolding_all rfl, by decide⟩

/-- Claim C4 (amended): for every valid set enumeration order, the returned
index list is a permutation of `canonNewIdx` — the first positions of the
distinct new identities in first-occurrence order — and that canonical list
is strictly increasing; the order in which the code returns these indices,
however, follows the unspecified CPython set iteration order. -/
theorem claim_C4_thm (rt : PyRuntime) (hrt : SetOrderOK rt) (cfg : Configs)
    (refPicks comPicks : List Pick) (nReg : ℤ) (idx : List Nat) (nReg' : ℤ)
    (refR : List String) (comR : List (Option String))
    (href : exMap pickRemark refPicks = .ok refR)
    (hcom : exMap (comRemark cfg) comPicks = .ok comR)
    (h : ManageNewPicks rt cfg refPicks comPicks nReg = .ok (idx, nReg')) :
    idx.Perm (canonNewIdx refR comR) ∧
    List.Pairwise (· < ·) (canonNewIdx refR comR) := by
  unfold ManageNewPicks at h
  rw [href] at h
  rw [hcom] at h
  replace h : (do
      let newPicksIndex ← exMap (remarkIndex comR) (rt.setOrder (newPickSet refR comR))
      Except.ok (newPicksIndex,
        nReg + ((comR.length : ℤ) -
          (((rt.setOrder (newPickSet refR comR)).length : ℤ))))) =
        Except.ok (idx, nReg') := h
  cases h3 : exMap (remarkIndex comR) (rt.setOrder (newPickSet refR comR)) with
  | error e => rw [h3] at h; exact Except.noConfusion h
  | ok idx0 =>
    rw [h3] at h
    replace h : (Except.ok (idx0,
        nReg + ((comR.length : ℤ) -
          (((rt.setOrder (newPickSet refR comR)).length : ℤ)))) :
          Except PyErr (List Nat × ℤ)) = Except.ok (idx, nReg') := h
    have hp2 := Except.ok.inj h
    rw [Prod.mk.injEq] at hp2
    obtain ⟨hidx, _⟩ := hp2
    subst hidx
    constructor
    · rw [exMap_remarkIndex_filterMap h3, canonNewIdx]
      exact List.Perm.filterMap _ (hrt (newPickSet refR comR))
    · rw [canonNewIdx, newPickSet]
      exact List.Pairwise.sublist (List.Sublist.filterMap _ (List.filter_sublist _))
        (firstDedup_idx_sorted comR)

/-- Witness for the amended claim C4 at a concrete call. -/
theorem claim_C4_wit :
    ([0, 1] : List Nat).Perm (canonNewIdx [] [some "AA_P_0", some "BB_P_0"]) ∧
    List.Pairwise (· < ·) (canonNewIdx [] [some "AA_P_0", some "BB_P_0"]) :=
  claim_C4_thm idRt idRt_ok cfgAll [] [wPick "AA" "P" "x" "0", wPick "BB" "P" "y" "0"] 0
    [0, 1] 0 [] [some "AA_P_0", some "BB_P_0"]
    (by with_unfolding_all rfl) (by with_unfolding_all rfl) (by with_unfolding_all rfl)

/-- The configuration `cfgAll` with S phases disabled. -/
def cfgNoS : Configs := { cfgAll with AddPhaseS := false }

/-- Witness for claim C8 at a concrete call with one filtered S pick. -/
theorem claim_C8_wit :
    (1 : ℤ) = 0 + ((([wPick "STA1" "S" "s1" "0"].length : ℕ) : ℤ) -
      ((([] : List Nat).length : ℕ) : ℤ)) ∧
    (cfgNoS.AddPhaseS = false →
      ∀ (i : Nat) (p : Pick), [wPick "STA1" "S" "s1" "0"][i]? = some p →
        pyIn "S" p.phase_hint = true → ¬ i ∈ ([] : List Nat)) :=
  claim_C8_thm idRt cfgNoS [] [wPick "STA1" "S" "s1" "0"] 0 [] 1
    (by with_unfolding_all rfl)

/-! ### Claim C10: the scan marks nothing when no key has two distinct weights -/

theorem keyAndW_red {pick : Pick} {w : String} (h : ReadExtra pick = .ok w) :
    keyAndW pick = .ok (pick.station_code, pick.phase_hint, w) := by
  rw [keyAndW, h]
  rfl

theorem pickFloatW_red {q : Pick} {wq : String} (h : ReadExtra q = .ok wq) :
    pickFloatW q = toFloat wq := by
  rw [pickFloatW, h]
  rfl

theorem pickFloatW_red_err {q : Pick} {e : PyErr} (h : ReadExtra q = .error e) :
    pickFloatW q = .error e := by
  rw [pickFloatW, h]
  rfl

theorem scanStep_keep (s p w tid : String) (acc : List String) (other : Pick) (qw : ℚ)
    (hw : toFloat w = .ok qw)
    (wo : String) (qo : ℚ) (h1 : ReadExtra other = .ok wo) (h2 : toFloat wo = .ok qo)
    (h3 : (s, p) = (other.station_code, other.phase_hint) → ¬ qo < qw) :
    scanStep s p w tid acc other = .ok acc := by
  rw [scanStep, keyAndW_red h1]
  show (if (s, p) = (other.station_code, other.phase_hint) then do
      let fw ← toFloat w
      let fww ← toFloat wo
      if fw > fww then Except.ok (acc ++ [tid]) else Except.ok acc
    else Except.ok acc) = Except.ok acc
  by_cases hk : (s, p) = (other.station_code, other.phase_hint)
  · rw [if_pos hk, hw, h2]
    show (if qw > qo then Except.ok (acc ++ [tid]) else Except.ok acc) = Except.ok acc
    rw [if_neg (h3 hk)]
  · rw [if_neg hk]

theorem exFoldl_scanStep_keep (s p w tid : String) (qw : ℚ) (hw : toFloat w = .ok qw) :
    ∀ (others : List Pick),
      (∀ other ∈ others, ∃ wo qo, ReadExtra other = .ok wo ∧ toFloat wo = .ok qo ∧
        ((s, p) = (other.station_code, other.phase_hint) → ¬ qo < qw)) →
      ∀ acc, exFoldl (scanStep s p w tid) acc others = .ok acc := by
  intro others
  induction others with
  | nil => intro _ acc; rfl
  | cons o t ih =>
    intro hall acc
    obtain ⟨wo, qo, h1, h2, h3⟩ := hall o (List.mem_cons_self o t)
    rw [exFoldl, scanStep_keep s p w tid acc o qw hw wo qo h1 h2 h3]
    exact ih (fun x hx => hall x (List.mem_cons_of_mem o hx)) acc

theorem scanIgnored_nil (picks : List Pick)
    (hok : ∀ q ∈ picks, ∃ wq fq, ReadExtra q = .ok wq ∧ toFloat wq = .ok fq)
    (heq : ∀ q r, q ∈ picks → r ∈ picks →
      (q.station_code, q.phase_hint) = (r.station_code, r.phase_hint) →
      pickFloatW q = pickFloatW r) :
    scanIgnored picks = .ok [] := by
  rw [scanIgnored]
  have main : ∀ (outl : List Pick), (∀ x ∈ outl, x ∈ picks) → ∀ acc : List String,
      exFoldl
        (fun acc trialPick => do
          let (s, p, w) ← keyAndW trialPick
          exFoldl (scanStep s p w trialPick.resource_id) acc picks)
        acc outl = .ok acc := by
    intro outl
    induction outl with
    | nil => intro _ acc; rfl
    | cons trial t ih =>
      intro hsub acc
      obtain ⟨wq, fq, hre, htf⟩ := hok trial (hsub trial (List.mem_cons_self trial t))
      rw [exFoldl]
      have hstep : (do
          let (s, p, w) ← keyAndW trial
          exFoldl (scanStep s p w trial.resource_id) acc picks) = .ok acc := by
        rw [keyAndW_red hre]
        show exFoldl
            (scanStep trial.station_code trial.phase_hint wq trial.resource_id)
            acc picks = .ok acc
        apply exFoldl_scanStep_keep trial.station_code trial.phase_hint wq
          trial.resource_id fq htf picks
        intro other hother
        obtain ⟨wo, fo, hro, hto⟩ := hok other hother
        refine ⟨wo, fo, hro, hto, ?_⟩
        intro hkey
        have := heq trial other (hsub trial (List.mem_cons_self trial t)) hother hkey
        rw [pickFloatW_red hre, pickFloatW_red hro, htf, hto] at this
        have hfo : fo = fq := (Except.ok.inj this).symm
        rw [hfo]
        exact lt_irrefl fq
      rw [hstep]
      exact ih (fun x hx => hsub x (List.mem_cons_of_mem trial hx)) acc
  exact main picks (fun x hx => hx) []

theorem popScan_contains_nil {α : Type} (f : α → String) (xs : List α) :
    popScan (fun x => List.contains [] (f x)) xs = xs := by
  rw [popScan_eq_skipScan]
  apply skipScan_eq_self
  intro x _
  rfl

/-- Claim C10: when every pick's weight parses and no two picks sharing a
(station, phase) key have different numeric weights, `ReviewEventPicks`
marks nothing and returns the event unchanged. -/
theorem claim_C10_thm (ev : Event)
    (hok : ∀ q ∈ ev.picks, exIsOk (pickFloatW q) = true)
    (heq : ∀ q r, q ∈ ev.picks → r ∈ ev.picks →
      (q.station_code, q.phase_hint) = (r.station_code, r.phase_hint) →
      pickFloatW q = pickFloatW r) :
    ReviewEventPicks ev = .ok ev := by
  have hok' : ∀ q ∈ ev.picks, ∃ wq fq, ReadExtra q = .ok wq ∧ toFloat wq = .ok fq := by
    intro q hq
    have h := hok q hq
    cases hre : ReadExtra q with
    | error e => rw [pickFloatW_red_err hre] at h; exact Bool.noConfusion h
    | ok wq =>
      rw [pickFloatW_red hre] at h
      cases htf : toFloat wq with
      | error e => rw [htf] at h; exact Bool.noConfusion h
      | ok fq => exact ⟨wq, fq, rfl, htf⟩
  rw [ReviewEventPicks, scanIgnored_nil ev.picks hok' heq]
  show Except.ok
      { ev with
        picks := popScan (fun p => List.contains ([] : List String) p.resource_id) ev.picks
        amplitudes :=
          popScan (fun a => List.contains ([] : List String) a.resource_id) ev.amplitudes
        preferred_origin := { ev.preferred_origin with
          arrivals := popScan (fun a => List.contains ([] : List String) a.pick_id)
            ev.preferred_origin.arrivals } } = Except.ok ev
  rw [popScan_contains_nil Pick.resource_id, popScan_contains_nil Amplitude.resource_id,
    popScan_contains_nil Arrival.pick_id]

/-- Witness for claim C10 at a two-pick event with distinct keys. -/
theorem claim_C10_wit :
    ReviewEventPicks
      { preferred_origin := origin0,
        picks := [wPick "STA1" "P" "w1" "1", wPick "STA2" "P" "w2" "2"],
        amplitudes := [] } =
      .ok { preferred_origin := origin0,
            picks := [wPick "STA1" "P" "w1" "1", wPick "STA2" "P" "w2" "2"],
            amplitudes := [] } :=
  claim_C10_thm _ (by with_unfolding_all decide)
    (by
      intro q r hq hr hkey
      fin_cases hq <;> fin_cases hr <;> first
        | rfl
        | exact absurd hkey (by decide))

/-! ### Claim C1 (amended): the lower-weight pick survives -/

theorem scanStep_mark (s p w tid : String) (acc : List String) (other : Pick)
    (qw qo : ℚ) (hw : toFloat w = .ok qw)
    (wo : String) (h1 : ReadExtra other = .ok wo) (h2 : toFloat wo = .ok qo)
    (hk : (s, p) = (other.station_code, other.phase_hint))
    (hgt : qo < qw) :
    scanStep s p w tid acc other = .ok (acc ++ [tid]) := by
  rw [scanStep, keyAndW_red h1]
  show (if (s, p) = (other.station_code, other.phase_hint) then do
      let fw ← toFloat w
      let fww ← toFloat wo
      if fw > fww then Except.ok (acc ++ [tid]) else Except.ok acc
    else Except.ok acc) = Except.ok (acc ++ [tid])
  rw [if_pos hk, hw, h2]
  show (if qw > qo then Except.ok (acc ++ [tid]) else Except.ok acc) =
    Except.ok (acc ++ [tid])
  rw [if_pos hgt]

theorem exFoldl_pair {σ α : Type} (f : σ → α → Except PyErr σ) (s s1 s2 : σ) (x y : α)
    (h1 : f s x = .ok s1) (h2 : f s1 y = .ok s2) :
    exFoldl f s [x, y] = .ok s2 := by
  show Except.bind (f s x) (fun s' => exFoldl f s' [y]) = .ok s2
  rw [h1]
  show Except.bind (f s1 y) (fun s' => exFoldl f s' []) = .ok s2
  rw [h2]
  rfl

theorem ReviewEventPicks_red (ev : Event) (ignored : List String)
    (h : scanIgnored ev.picks = .ok ignored) :
    ReviewEventPicks ev = .ok
      { preferred_origin := { ev.preferred_origin with
          arrivals := popScan (fun x => List.contains ignored x.pick_id)
            ev.preferred_origin.arrivals }
        picks := popScan (fun p => List.contains ignored p.resource_id) ev.picks
        amplitudes := popScan (fun x => List.contains ignored x.resource_id)
          ev.amplitudes } := by
  rw [ReviewEventPicks, h]
  rfl

/-- Claim C1 (amended): in an event whose picks are exactly two picks `a`, `b`
(in either order) with the same (station, phase) key, distinct resource ids,
and weights parsing to numbers `qa < qb`, `ReviewEventPicks` succeeds and the
surviving pick list is `[a]` — exactly one pick with that key remains, and it
is the one with the minimal weight, not the maximal one. -/
theorem claim_C1_thm (ev : Event) (a b : Pick) (wa wb : String) (qa qb : ℚ)
    (hpicks : ev.picks = [a, b] ∨ ev.picks = [b, a])
    (hs : a.station_code = b.station_code) (hp : a.phase_hint = b.phase_hint)
    (hra : ReadExtra a = .ok wa) (hfa : toFloat wa = .ok qa)
    (hrb : ReadExtra b = .ok wb) (hfb : toFloat wb = .ok qb)
    (hlt : qa < qb) (hid : a.resource_id ≠ b.resource_id) :
    ∃ ev', ReviewEventPicks ev = .ok ev' ∧ ev'.picks = [a] := by
  have hkab : (a.station_code, a.phase_hint) = (b.station_code, b.phase_hint) := by
    rw [hs, hp]
  have hremA : List.contains [b.resource_id] a.resource_id = false := by
    simp [List.contains, List.elem_eq_mem, hid]
  have hremB : List.contains [b.resource_id] b.resource_id = true := by
    simp [List.contains, List.elem_eq_mem]
  have hstepAA : ∀ acc, scanStep a.station_code a.phase_hint wa a.resource_id acc a =
      .ok acc :=
    fun acc => scanStep_keep _ _ _ _ acc a qa hfa wa qa hra hfa (fun _ => lt_irrefl qa)
  have hstepAB : ∀ acc, scanStep a.station_code a.phase_hint wa a.resource_id acc b =
      .ok acc :=
    fun acc => scanStep_keep _ _ _ _ acc b qa hfa wb qb hrb hfb
      (fun _ => not_lt.mpr (le_of_lt hlt))
  have hstepBB : ∀ acc, scanStep b.station_code b.phase_hint wb b.resource_id acc b =
      .ok acc :=
    fun acc => scanStep_keep _ _ _ _ acc b qb hfb wb qb hrb hfb (fun _ => lt_irrefl qb)
  have hstepBA : ∀ acc, scanStep b.station_code b.phase_hint wb b.resource_id acc a =
      .ok (acc ++ [b.resource_id]) :=
    fun acc => scanStep_mark _ _ _ _ acc a qb qa hfb wa hra hfa (by rw [hkab]) hlt
  rcases hpicks with hpk | hpk
  · have hscan : scanIgnored ev.picks = .ok [b.resource_id] := by
      rw [hpk, scanIgnored]
      apply exFoldl_pair _ _ ([] : List String)
      · rw [keyAndW_red hra]
        show exFoldl (scanStep a.station_code a.phase_hint wa a.resource_id) [] [a, b] =
          .ok []
        exact exFoldl_pair _ _ [] [] a b (hstepAA []) (hstepAB [])
      · rw [keyAndW_red hrb]
        show exFoldl (scanStep b.station_code b.phase_hint wb b.resource_id) [] [a, b] =
          .ok [b.resource_id]
        exact exFoldl_pair _ _ [b.resource_id] [b.resource_id] a b (hstepBA [])
          (hstepBB [b.resource_id])
    rw [ReviewEventPicks_red ev [b.resource_id] hscan]
    refine ⟨_, rfl, ?_⟩
    show popScan (fun p => List.contains [b.resource_id] p.resource_id) ev.picks = [a]
    rw [hpk, popScan_eq_skipScan, skipScan_neg [b] hremA, skipScan_one, hremB]
    rfl
  · have hscan : scanIgnored ev.picks = .ok [b.resource_id] := by
      rw [hpk, scanIgnored]
      apply exFoldl_pair _ _ [b.resource_id]
      · rw [keyAndW_red hrb]
        show exFoldl (scanStep b.station_code b.phase_hint wb b.resource_id) [] [b, a] =
          .ok [b.resource_id]
        exact exFoldl_pair _ _ [] [b.resource_id] b a (hstepBB []) (hstepBA [])
      · rw [keyAndW_red hra]
        show exFoldl (scanStep a.station_code a.phase_hint wa a.resource_id)
          [b.resource_id] [b, a] = .ok [b.resource_id]
        exact exFoldl_pair _ _ [b.resource_id] [b.resource_id] b a
          (hstepAB [b.resource_id]) (hstepAA [b.resource_id])
    rw [ReviewEventPicks_red ev [b.resource_id] hscan]
    refine ⟨_, rfl, ?_⟩
    show popScan (fun p => List.contains [b.resource_id] p.resource_id) ev.picks = [a]
    rw [hpk, popScan_eq_skipScan, skipScan_two, hremB]
    rfl

/-- Witness for the amended claim C1 at `evTwo`. -/
theorem claim_C1_wit :
    ∃ ev', ReviewEventPicks evTwo = .ok ev' ∧
      ev'.picks = [wPick "STA1" "P" "p1" "1"] :=
  claim_C1_thm evTwo (wPick "STA1" "P" "p1" "1") (wPick "STA1" "P" "p2" "2") "1" "2" 1 2
    (Or.inl rfl) rfl rfl (by with_unfolding_all rfl) (by with_unfolding_all rfl)
    (by with_unfolding_all rfl) (by with_unfolding_all rfl)
    (by norm_num) (by decide)

/-! ### Claim C6: helper lemmas about counter-independence -/

theorem ManageNewPicks_shift (rt : PyRuntime) (cfg : Configs)
    (rp cp : List Pick) (n : ℤ) :
    ManageNewPicks rt cfg rp cp n =
      (ManageNewPicks rt cfg rp cp 0).map (fun r => (r.1, n + r.2)) := by
  unfold ManageNewPicks
  cases h1 : exMap pickRemark rp with
  | error e => rfl
  | ok refR =>
    cases h2 : exMap (comRemark cfg) cp with
    | error e => rfl
    | ok comR =>
      show (do
          let newPicksIndex ← exMap (remarkIndex comR) (rt.setOrder (newPickSet refR comR))
          Except.ok (newPicksIndex,
            n + ((comR.length : ℤ) -
              (((rt.setOrder (newPickSet refR comR)).length : ℤ))))) =
        (do
          let newPicksIndex ← exMap (remarkIndex comR) (rt.setOrder (newPickSet refR comR))
          Except.ok (newPicksIndex,
            0 + ((comR.length : ℤ) -
              (((rt.setOrder (newPickSet refR comR)).length : ℤ))))).map
          (fun r : List Nat × ℤ => (r.1, n + r.2))
      cases h3 : exMap (remarkIndex comR) (rt.setOrder (newPickSet refR comR)) with
      | error e => rfl
      | ok idx =>
        show Except.ok (idx,
            n + ((comR.length : ℤ) -
              (((rt.setOrder (newPickSet refR comR)).length : ℤ)))) =
          Except.ok (idx,
            n + (0 + ((comR.length : ℤ) -
              (((rt.setOrder (newPickSet refR comR)).length : ℤ)))))
        norm_num

theorem updStep_red (ce : Event) (pks : List Pick) (arrs : List Arrival)
    (amps : List Amplitude) (nP nS nA : ℤ) (i : Nat) (pk : Pick)
    (hg : ce.picks[i]? = some pk) :
    updStep ce (pks, arrs, amps, nP, nS, nA) i =
      (if pyIn "P" pk.phase_hint then
        Except.ok (pks ++ [pk],
          arrs ++ ce.preferred_origin.arrivals.filter (fun a => a.pick_id == pk.resource_id),
          amps ++ ce.amplitudes.filter (fun a => a.pick_id == pk.resource_id),
          nP + 1, nS, nA)
      else if pyIn "S" pk.phase_hint then
        Except.ok (pks ++ [pk],
          arrs ++ ce.preferred_origin.arrivals.filter (fun a => a.pick_id == pk.resource_id),
          amps ++ ce.amplitudes.filter (fun a => a.pick_id == pk.resource_id),
          nP, nS + 1, nA)
      else if pyIn "AML" pk.phase_hint then
        Except.ok (pks ++ [pk],
          arrs ++ ce.preferred_origin.arrivals.filter (fun a => a.pick_id == pk.resource_id),
          amps ++ ce.amplitudes.filter (fun a => a.pick_id == pk.resource_id),
          nP, nS, nA + 1)
      else
        Except.ok (pks ++ [pk],
          arrs ++ ce.preferred_origin.arrivals.filter (fun a => a.pick_id == pk.resource_id),
          amps ++ ce.amplitudes.filter (fun a => a.pick_id == pk.resource_id),
          nP, nS, nA)) := by
  unfold updStep
  rw [hg]

theorem updStep_red_err (ce : Event) (pks : List Pick) (arrs : List Arrival)
    (amps : List Amplitude) (nP nS nA : ℤ) (i : Nat)
    (hg : ce.picks[i]? = none) :
    updStep ce (pks, arrs, amps, nP, nS, nA) i = .error .indexError := by
  unfold updStep
  rw [hg]

theorem exFoldl_updStep_indep (ce : Event) :
    ∀ (idx : List Nat) (pks : List Pick) (arrs : List Arrival) (amps : List Amplitude)
      (p s a p' s' a' : ℤ),
      (exFoldl (updStep ce) (pks, arrs, amps, p, s, a) idx).map
          (fun r => (r.1, r.2.1, r.2.2.1)) =
        (exFoldl (updStep ce) (pks, arrs, amps, p', s', a') idx).map
          (fun r => (r.1, r.2.1, r.2.2.1)) := by
  intro idx
  induction idx with
  | nil => intro pks arrs amps p s a p' s' a'; rfl
  | cons i t ih =>
    intro pks arrs amps p s a p' s' a'
    cases hg : ce.picks[i]? with
    | none =>
      show Except.map _ (Except.bind (updStep ce (pks, arrs, amps, p, s, a) i) _) =
        Except.map _ (Except.bind (updStep ce (pks, arrs, amps, p', s', a') i) _)
      rw [updStep_red_err ce pks arrs amps p s a i hg,
        updStep_red_err ce pks arrs amps p' s' a' i hg]
    | some pk =>
      show Except.map _ (Except.bind (updStep ce (pks, arrs, amps, p, s, a) i) _) =
        Except.map _ (Except.bind (updStep ce (pks, arrs, amps, p', s', a') i) _)
      rw [updStep_red ce pks arrs amps p s a i pk hg,
        updStep_red ce pks arrs amps p' s' a' i pk hg]
      by_cases hP : pyIn "P" pk.phase_hint = true
      · rw [if_pos hP, if_pos hP]
        exact ih _ _ _ (p + 1) s a (p' + 1) s' a'
      · rw [if_neg hP, if_neg hP]
        by_cases hS : pyIn "S" pk.phase_hint = true
        · rw [if_pos hS, if_pos hS]
          exact ih _ _ _ p (s + 1) a p' (s' + 1) a'
        · rw [if_neg hS, if_neg hS]
          by_cases hA : pyIn "AML" pk.phase_hint = true
          · rw [if_pos hA, if_pos hA]
            exact ih _ _ _ p s (a + 1) p' s' (a' + 1)
          · rw [if_neg hA, if_neg hA]
            exact ih _ _ _ p s a p' s' a'

/-- The event assembled by `UpdateEvent` from the accumulated lists. -/
def builtEvent (re : Event) (pks : List Pick) (arrs : List Arrival)
    (amps : List Amplitude) : Event :=
  { re with
    picks := pks
    amplitudes := amps
    preferred_origin := { re.preferred_origin with arrivals := arrs } }

theorem UpdateEvent_red (rt : PyRuntime) (cfg : Configs) (re ce : Event)
    (nP nS nR nA : ℤ) (idx : List Nat) (m : ℤ)
    (hm : ManageNewPicks rt cfg re.picks ce.picks nR = .ok (idx, m))
    (pks : List Pick) (arrs : List Arrival) (amps : List Amplitude) (c1 c2 c3 : ℤ)
    (hf : exFoldl (updStep ce)
        (re.picks, re.preferred_origin.arrivals, re.amplitudes, nP, nS, nA) idx =
      .ok (pks, arrs, amps, c1, c2, c3)) :
    UpdateEvent rt cfg re ce nP nS nR nA =
      (if cfg.ReplaceNewPhaseOnlyWithHigherWeight then
          ReviewEventPicks (builtEvent re pks arrs amps)
        else pure (builtEvent re pks arrs amps)).map
        (fun ev => (ev, c1, c2, m, c3)) := by
  by_cases hRW : cfg.ReplaceNewPhaseOnlyWithHigherWeight = true
  · unfold UpdateEvent
    rw [hm, hRW]
    show (do
        let (pks', arrs', amps', nP', nS', nA') ←
          exFoldl (updStep ce)
            (re.picks, re.preferred_origin.arrivals, re.amplitudes, nP, nS, nA) idx
        let ev ← ReviewEventPicks (builtEvent re pks' arrs' amps')
        Except.ok (ev, nP', nS', m, nA')) =
      (ReviewEventPicks (builtEvent re pks arrs amps)).map (fun ev => (ev, c1, c2, m, c3))
    rw [hf]
    show Except.bind (ReviewEventPicks (builtEvent re pks arrs amps))
        (fun ev => Except.ok (ev, c1, c2, m, c3)) =
      (ReviewEventPicks (builtEvent re pks arrs amps)).map (fun ev => (ev, c1, c2, m, c3))
    cases hrv : ReviewEventPicks (builtEvent re pks arrs amps) with
    | error e => rfl
    | ok ev' => rfl
  · have hRW2 : cfg.ReplaceNewPhaseOnlyWithHigherWeight = false :=
      Bool.eq_false_iff.mpr hRW
    unfold UpdateEvent
    rw [hm, hRW2]
    show (do
        let (pks', arrs', amps', nP', nS', nA') ←
          exFoldl (updStep ce)
            (re.picks, re.preferred_origin.arrivals, re.amplitudes, nP, nS, nA) idx
        let ev ← pure (builtEvent re pks' arrs' amps')
        Except.ok (ev, nP', nS', m, nA')) =
      (pure (builtEvent re pks arrs amps) : Except PyErr Event).map
        (fun ev => (ev, c1, c2, m, c3))
    rw [hf]
    rfl

theorem UpdateEvent_red_errM (rt : PyRuntime) (cfg : Configs) (re ce : Event)
    (nP nS nR nA : ℤ) (e : PyErr)
    (hm : ManageNewPicks rt cfg re.picks ce.picks nR = .error e) :
    UpdateEvent rt cfg re ce nP nS nR nA = .error e := by
  unfold UpdateEvent
  rw [hm]
  rfl

theorem UpdateEvent_red_errF (rt : PyRuntime) (cfg : Configs) (re ce : Event)
    (nP nS nR nA : ℤ) (idx : List Nat) (m : ℤ)
    (hm : ManageNewPicks rt cfg re.picks ce.picks nR = .ok (idx, m)) (e : PyErr)
    (hf : exFoldl (updStep ce)
        (re.picks, re.preferred_origin.arrivals, re.amplitudes, nP, nS, nA) idx =
      .error e) :
    UpdateEvent rt cfg re ce nP nS nR nA = .error e := by
  unfold UpdateEvent
  rw [hm]
  show (do
      let (pks', arrs', amps', nP', nS', nA') ←
        exFoldl (updStep ce)
          (re.picks, re.preferred_origin.arrivals, re.amplitudes, nP, nS, nA) idx
      let ev : Event :=
        { re with
          picks := pks'
          amplitudes := amps'
          preferred_origin := { re.preferred_origin with arrivals := arrs' } }
      let ev ← if cfg.ReplaceNewPhaseOnlyWithHigherWeight then ReviewEventPicks ev
        else pure ev
      Except.ok (ev, nP', nS', m, nA')) = (Except.error e : Except PyErr (Event × ℤ × ℤ × ℤ × ℤ))
  rw [hf]
  rfl

theorem UpdateEvent_ok_mergeOne (rt : PyRuntime) (cfg : Configs)
    (gps : ℚ → ℚ → ℚ → ℚ → ℚ) (comCat : List Event) (re ce : Event)
    (hfind : comCat.find? (fun c => ComputeDiff cfg gps re c) = some ce)
    (nP nS nR nA : ℤ) (ev : Event) (p' s' r' a' : ℤ)
    (hu : UpdateEvent rt cfg re ce nP nS nR nA = .ok (ev, p', s', r', a')) :
    mergeOne rt cfg gps comCat re = .ok (ev, true) := by
  cases hm : ManageNewPicks rt cfg re.picks ce.picks nR with
  | error e =>
    rw [UpdateEvent_red_errM rt cfg re ce nP nS nR nA e hm] at hu
    exact Except.noConfusion hu
  | ok pr =>
    obtain ⟨idx, m⟩ := pr
    cases hf : exFoldl (updStep ce)
        (re.picks, re.preferred_origin.arrivals, re.amplitudes, nP, nS, nA) idx with
    | error e =>
      rw [UpdateEvent_red_errF rt cfg re ce nP nS nR nA idx m hm e hf] at hu
      exact Except.noConfusion hu
    | ok st =>
      obtain ⟨pks, arrs, amps, c1, c2, c3⟩ := st
      rw [UpdateEvent_red rt cfg re ce nP nS nR nA idx m hm pks arrs amps c1 c2 c3 hf] at hu
      -- the zero-counter run of ManageNewPicks
      have hshift := ManageNewPicks_shift rt cfg re.picks ce.picks nR
      rw [hm] at hshift
      cases hm0 : ManageNewPicks rt cfg re.picks ce.picks 0 with
      | error e => rw [hm0] at hshift; exact Except.noConfusion hshift
      | ok pr0 =>
        obtain ⟨idx0, m0⟩ := pr0
        rw [hm0] at hshift
        have hidm : idx = idx0 ∧ m = nR + m0 := by
          have h2 := Except.ok.inj hshift
          rw [Prod.mk.injEq] at h2
          exact h2
        obtain ⟨hidx0, _⟩ := hidm
        subst hidx0
        -- the zero-counter run of the fold
        have hind := exFoldl_updStep_indep ce idx re.picks re.preferred_origin.arrivals
          re.amplitudes nP nS nA 0 0 0
        rw [hf] at hind
        cases hf0 : exFoldl (updStep ce)
            (re.picks, re.preferred_origin.arrivals, re.amplitudes, 0, 0, 0) idx with
        | error e => rw [hf0] at hind; exact Except.noConfusion hind
        | ok st0 =>
          obtain ⟨pks0, arrs0, amps0, d1, d2, d3⟩ := st0
          rw [hf0] at hind
          have h3 : (pks, arrs, amps) = (pks0, arrs0, amps0) := Except.ok.inj hind
          rw [Prod.mk.injEq, Prod.mk.injEq] at h3
          obtain ⟨h4, h5, h6⟩ := h3
          subst h4
          subst h5
          subst h6
          rw [mergeOne, hfind]
          show (do
              let (ev0, _, _, _, _) ← UpdateEvent rt cfg re ce 0 0 0 0
              Except.ok (ev0, true)) = Except.ok (ev, true)
          rw [UpdateEvent_red rt cfg re ce 0 0 0 0 idx m0 hm0 pks arrs amps d1 d2 d3 hf0]
          cases hrev : (if cfg.ReplaceNewPhaseOnlyWithHigherWeight then
              ReviewEventPicks (builtEvent re pks arrs amps)
            else pure (builtEvent re pks arrs amps)) with
          | error e =>
            rw [hrev] at hu
            exact Except.noConfusion hu
          | ok ev' =>
            rw [hrev] at hu
            have hev : ev' = ev := by
              have h7 := Except.ok.inj hu
              rw [Prod.mk.injEq] at h7
              exact h7.1
            show Except.ok (ev', true) = Except.ok (ev, true)
            rw [hev]

theorem MergeLoop_closed (rt : PyRuntime) (cfg : Configs) (gps : ℚ → ℚ → ℚ → ℚ → ℚ)
    (comCat : List Event) :
    ∀ (refs : List Event) (tar0 com0 : List Event) (nC0 nP0 nS0 nA0 nR0 : ℤ)
      (tar comE : List Event) (nC nP nS nA nR : ℤ),
      MergeLoop rt cfg gps comCat refs (tar0, com0, nC0, nP0, nS0, nA0, nR0) =
        .ok (tar, comE, nC, nP, nS, nA, nR) →
      ∃ pairs : List (Event × Bool),
        exMap (mergeOne rt cfg gps comCat) refs = .ok pairs ∧
        tar = tar0 ++ pairs.map Prod.fst ∧
        comE = com0 ++ (pairs.filter Prod.snd).map Prod.fst ∧
        nC = nC0 + (((pairs.filter Prod.snd).length : ℕ) : ℤ) := by
  intro refs
  induction refs with
  | nil =>
    intro tar0 com0 nC0 nP0 nS0 nA0 nR0 tar comE nC nP nS nA nR h
    have h2 : (tar0, com0, nC0, nP0, nS0, nA0, nR0) =
        (tar, comE, nC, nP, nS, nA, nR) := Except.ok.inj h
    simp only [Prod.mk.injEq] at h2
    obtain ⟨rfl, rfl, rfl, rfl, rfl, rfl, rfl⟩ := h2
    exact ⟨[], rfl, by simp, by simp, by simp⟩
  | cons re rest ih =>
    intro tar0 com0 nC0 nP0 nS0 nA0 nR0 tar comE nC nP nS nA nR h
    rw [MergeLoop] at h
    cases hfind : comCat.find? (fun c => ComputeDiff cfg gps re c) with
    | none =>
      rw [hfind] at h
      obtain ⟨pairs', hex, htar, hcom, hnc⟩ :=
        ih (tar0 ++ [re]) com0 nC0 nP0 nS0 nA0 nR0 tar comE nC nP nS nA nR h
      have hmergeQ : mergeOne rt cfg gps comCat re = .ok (re, false) := by
        rw [mergeOne, hfind]
      refine ⟨(re, false) :: pairs', ?_, ?_, ?_, ?_⟩
      · rw [exMap, hmergeQ, hex]
        rfl
      · rw [htar]
        simp
      · rw [hcom]
        simp
      · rw [hnc]
        simp
    | some ce =>
      rw [hfind] at h
      replace h : (do
          let (ev, nP', nS', nR', nA') ← UpdateEvent rt cfg re ce nP0 nS0 nR0 nA0
          MergeLoop rt cfg gps comCat rest
            (tar0 ++ [ev], com0 ++ [ev], nC0 + 1, nP', nS', nA', nR')) =
          .ok (tar, comE, nC, nP, nS, nA, nR) := h
      cases hu : UpdateEvent rt cfg re ce nP0 nS0 nR0 nA0 with
      | error e =>
        rw [hu] at h
        exact Except.noConfusion h
      | ok tup =>
        obtain ⟨ev, p', s', r', a'⟩ := tup
        rw [hu] at h
        replace h : MergeLoop rt cfg gps comCat rest
            (tar0 ++ [ev], com0 ++ [ev], nC0 + 1, p', s', a', r') =
            .ok (tar, comE, nC, nP, nS, nA, nR) := h
        obtain ⟨pairs', hex, htar, hcom, hnc⟩ :=
          ih (tar0 ++ [ev]) (com0 ++ [ev]) (nC0 + 1) p' s' a' r' tar comE nC nP nS nA nR h
        have hmergeQ : mergeOne rt cfg gps comCat re = .ok (ev, true) :=
          UpdateEvent_ok_mergeOne rt cfg gps comCat re ce hfind nP0 nS0 nR0 nA0
            ev p' s' r' a' hu
        refine ⟨(ev, true) :: pairs', ?_, ?_, ?_, ?_⟩
        · rw [exMap, hmergeQ, hex]
          rfl
        · rw [htar]
          simp
        · rw [hcom]
          simp
        · rw [hnc]
          simp [List.filter]
          omega

/-- Claim C6: a successful `MergeCatalog` run is characterized per reference
event by `mergeOne` — scan the comparison catalog in order, merge on the
first event passing `ComputeDiff` (greedy: no later comparison events are
consulted) — with: the full output catalog listing every reference event
(merged or untouched) in original order, the matched-only catalog listing
exactly the merged reference events in order, and the common-event counter
equal to the number of matched reference events. -/
theorem claim_C6_thm (rt : PyRuntime) (cfg : Configs) (gps : ℚ → ℚ → ℚ → ℚ → ℚ)
    (RefCat ComCat : List Event) (tar comE : List Event) (nC nP nS nA nR : ℤ)
    (h : MergeCatalog rt cfg gps RefCat ComCat =
      .ok (tar, comE, nC, nP, nS, nA, nR)) :
    ∃ pairs : List (Event × Bool),
      exMap (mergeOne rt cfg gps ComCat) RefCat = .ok pairs ∧
      tar = pairs.map Prod.fst ∧
      comE = (pairs.filter Prod.snd).map Prod.fst ∧
      nC = (((pairs.filter Prod.snd).length : ℕ) : ℤ) := by
  obtain ⟨pairs, hex, htar, hcom, hnc⟩ :=
    MergeLoop_closed rt cfg gps ComCat RefCat [] [] 0 0 0 0 0 tar comE nC nP nS nA nR h
  refine ⟨pairs, hex, ?_, ?_, ?_⟩
  · simpa using htar
  · simpa using hcom
  · simpa using hnc

/-- The constant-zero geodesic function (both events at the same epicenter). -/
def gps0 : ℚ → ℚ → ℚ → ℚ → ℚ := fun _ _ _ _ => 0

/-- A reference event with no picks at time 0. -/
def refEvW : Event :=
  { preferred_origin := { time := 0, latitude := 10, longitude := 20, arrivals := [] },
    picks := [], amplitudes := [] }

/-- A comparison event with no picks one second later. -/
def comEvW : Event :=
  { preferred_origin := { time := 1, latitude := 10, longitude := 20, arrivals := [] },
    picks := [], amplitudes := [] }

/-- Witness for claim C6 at a one-event catalog pair that matches. -/
theorem claim_C6_wit :
    ∃ pairs : List (Event × Bool),
      exMap (mergeOne idRt cfgAll gps0 [comEvW]) [refEvW] = .ok pairs ∧
      ([refEvW] : List Event) = pairs.map Prod.fst ∧
      ([refEvW] : List Event) = (pairs.filter Prod.snd).map Prod.fst ∧
      (1 : ℤ) = (((pairs.filter Prod.snd).length : ℕ) : ℤ) :=
  claim_C6_thm idRt cfgAll gps0 [refEvW] [comEvW] [refEvW] [refEvW] 1 0 0 0 0
    (by with_unfolding_all rfl)
